import Mathlib

/-!
Verification of the mailbox monitoring engine in `gmail_check_skill.py`
(class `GmailCheckSkill`).

Python strings are modelled as lists of characters (`Str`), Python dicts
as association lists in insertion order, and the IMAP mail store as an
explicit `ConnResult` value carrying either the candidate messages the
search returned or a connection-level error.  The MD5 fingerprint and the
MIME header decoder are pure library functions; they enter the model as
function parameters (`md5hex`, `decode`), so every theorem below holds for
the concrete functions the Python code uses.  The JSON cache file is
modelled on the flat string-to-string objects the engine itself reads and
writes (no escape sequences); any other content is treated as malformed,
matching the engine's policy of treating unreadable cache files as empty.
-/

namespace GmailCheck

/-- Python strings, modelled as lists of characters. -/
abbrev Str := List Char

/-- The processed-emails cache: a Python dict from fingerprint to ISO
timestamp, modelled as an association list in insertion order. -/
abbrev Cache := List (Str × Str)

/-- Python `str.lower()` (per-character lowering). -/
def pyLower (s : Str) : Str := s.map Char.toLower

/-- Python `str.strip()`: remove leading and trailing whitespace. -/
def pyStrip (s : Str) : Str :=
  ((s.dropWhile Char.isWhitespace).reverse.dropWhile Char.isWhitespace).reverse

/-- Does `hay` start with `needle`? (used to model Python substring tests) -/
def startsWith : Str → Str → Bool
  | _, [] => true
  | [], _ :: _ => false
  | c :: t, d :: n => c == d && startsWith t n

/-- Python `needle in hay` for strings: substring containment. -/
def pyContains : Str → Str → Bool
  | [], needle => needle.isEmpty
  | c :: t, needle => startsWith (c :: t) needle || pyContains t needle

/-- `needle` occurs as a contiguous substring of `hay`. -/
def IsSubstring (needle hay : Str) : Prop :=
  ∃ u v, hay = u ++ needle ++ v

/-- `GmailCheckSkill._match_subject`: case-insensitive substring match,
with an empty subject rejected up front. -/
def matchSubject (subject pattern : Str) : Bool :=
  if subject.isEmpty then false
  else pyContains (pyLower subject) (pyLower pattern)

/-- `GmailCheckSkill._match_sender`: extract the bare address from a
`Name <addr>` form (Python `sender.split('<')[1].split('>')[0].strip()`)
when both angle brackets occur, otherwise use the stripped raw value,
then compare case-insensitively for equality with the filter sender. -/
def matchSender (sender filterSender : Str) : Bool :=
  if sender.isEmpty then false
  else
    let emailPart :=
      if sender.contains '<' && sender.contains '>' then
        pyStrip ((((sender.dropWhile (· != '<')).drop 1).takeWhile (· != '<')).takeWhile (· != '>'))
      else pyStrip sender
    pyLower emailPart == pyLower filterSender

/-- One entry of the `email_filters` dict: a sender address paired with
its list of subject patterns (dict iteration order preserved). -/
structure FilterEntry where
  sender : Str
  subjects : List Str
deriving DecidableEq

/-- The per-candidate filter-loop state in `_check_emails`
(`match_found`, `matched_sender`, `matched_subjects`). -/
structure MatchState where
  matchFound : Bool
  matchedSender : Option Str
  matchedSubjects : List Str
deriving DecidableEq

/-- The filter loop of `_check_emails` (lines 292-311): for every filter
entry whose sender matches, record that sender and append every subject
pattern that matches the candidate's subject. -/
def evalFilters (sender subject : Str) (filters : List FilterEntry) : MatchState :=
  filters.foldl
    (fun st f =>
      if matchSender sender f.sender then
        let hits := f.subjects.filter (fun p => matchSubject subject p)
        { matchFound := st.matchFound || !hits.isEmpty
          matchedSender := some f.sender
          matchedSubjects := st.matchedSubjects ++ hits }
      else st)
    ⟨false, none, []⟩

/-- A candidate message as listed by the mail store: the raw headers the
engine reads, the text that body extraction would yield if the full
message is fetched, and whether processing this message raises (such a
per-message error is caught and the message skipped, lines 337-340). -/
structure Candidate where
  sender : Str
  subjectRaw : Str
  messageId : Str
  dateReceived : Str
  content : Str
  fails : Bool
deriving DecidableEq

/-- One element of the `matched_emails` result list (lines 321-330). -/
structure MatchedEmail where
  sender : Str
  subject : Str
  content : Str
  dateReceived : Str
  messageId : Str
  matchedSenderFilter : Option Str
  matchedSubjectFilters : List Str
  emailId : Str
deriving DecidableEq

/-- Python `key in dict`. -/
def dictContains (d : Cache) (k : Str) : Bool := d.any (fun p => p.1 == k)

/-- Python `dict[key] = value`: update in place if the key exists,
otherwise append (dicts preserve insertion order). -/
def dictInsert (d : Cache) (k v : Str) : Cache :=
  if dictContains d k then d.map (fun p => if p.1 == k then (k, v) else p)
  else d ++ [(k, v)]

/-- `subject = self._decode_header(subject_raw) if subject_raw else ''`
(line 272), with the MIME decoder abstracted as `decode`. -/
def decodedSubject (decode : Str → Str) (c : Candidate) : Str :=
  if c.subjectRaw.isEmpty then [] else decode c.subjectRaw

/-- The body of the candidate loop of `_check_emails` (lines 257-340):
compute the fingerprint (`md5hex` abstracts `hashlib.md5(...).hexdigest()`
applied to `message_id + date_received`), skip cached fingerprints when
`use_cache` is enabled, evaluate the filters, and on a match append the
matched email and record the fingerprint with the current timestamp. -/
def processCandidate (md5hex decode : Str → Str) (now : Str)
    (filters : List FilterEntry) (useCache : Bool)
    (st : List MatchedEmail × Cache) (c : Candidate) :
    List MatchedEmail × Cache :=
  if c.fails then st
  else
    let subject := decodedSubject decode c
    let emailId := md5hex (c.messageId ++ c.dateReceived)
    if useCache && dictContains st.2 emailId then st
    else
      let ms := evalFilters c.sender subject filters
      if ms.matchFound then
        (st.1 ++ [{ sender := c.sender, subject := subject, content := c.content
                    dateReceived := c.dateReceived, messageId := c.messageId
                    matchedSenderFilter := ms.matchedSender
                    matchedSubjectFilters := ms.matchedSubjects, emailId := emailId }],
          dictInsert st.2 emailId now)
      else st

/-- `message_list = message_list[-max_emails:]` (lines 253-254): keep
only the most recent `maxEmails` candidates. -/
def capCandidates (maxEmails : Nat) (cs : List Candidate) : List Candidate :=
  if cs.length > maxEmails then cs.drop (cs.length - maxEmails) else cs

/-- The candidate loop of `_check_emails` run over a capped candidate
list, starting from an empty result list and the supplied cache. -/
def runCandidates (md5hex decode : Str → Str) (now : Str)
    (filters : List FilterEntry) (useCache : Bool)
    (cache : Cache) (cs : List Candidate) : List MatchedEmail × Cache :=
  cs.foldl (processCandidate md5hex decode now filters useCache) ([], cache)

/-- Outcome of establishing the IMAP session and searching the date
window: either the ordered candidate list, or a connection-level error
(login or network failure) with the exception text. -/
inductive ConnResult where
  | ok (candidates : List Candidate)
  | connError (msg : Str)
deriving DecidableEq

/-- Text prepended at line 346: `Gmail connection error: `. -/
def connErrorMsg : Str := "Gmail connection error: ".toList

/-- `GmailCheckSkill._check_emails`: on a connection-level failure the
whole run aborts with the wrapped exception (line 346); otherwise the
capped candidate list is processed in order and the matched emails are
returned together with the updated cache mapping. -/
def checkEmails (md5hex decode : Str → Str) (now : Str)
    (filters : List FilterEntry) (conn : ConnResult) (cache : Cache)
    (maxEmails : Nat) (useCache : Bool) :
    Except Str (List MatchedEmail × Cache) :=
  match conn with
  | .connError msg => .error (connErrorMsg ++ msg)
  | .ok cs =>
      .ok (runCandidates md5hex decode now filters useCache cache (capCandidates maxEmails cs))

/-- The durable state the engine touches: the cache file's content, or
`none` when the file does not exist. -/
structure Disk where
  cacheFile : Option Str
deriving DecidableEq

/-- The character class `json.load` skips between tokens. -/
def jsonWs (c : Char) : Bool := c == ' ' || c == '\t' || c == '\n' || c == '\r'

/-- Skip JSON whitespace. -/
def skipWs (s : Str) : Str := s.dropWhile jsonWs

/-- Parse one JSON string literal (the escape-free fragment the engine
itself writes; content containing a backslash is rejected rather than
misread). Returns the content and the rest of the input. -/
def parseJString : Str → Option (Str × Str)
  | [] => none
  | c :: rest =>
      if c = '"' then
        let content := rest.takeWhile (· != '"')
        if content.all (fun cc => cc != '\\') then
          match rest.dropWhile (· != '"') with
          | [] => none
          | c2 :: r => if c2 = '"' then some (content, r) else none
        else none
      else none

/-- Parse the `"key": "value"` members of a flat JSON object, starting
just after a member's opening quote position; fuel bounds the recursion. -/
def parseEntriesAux : Nat → Str → Cache → Option Cache
  | 0, _, _ => none
  | fuel + 1, s, acc =>
      match parseJString s with
      | none => none
      | some (k, r1) =>
          match skipWs r1 with
          | [] => none
          | c2 :: r2 =>
              if c2 = ':' then
                match parseJString (skipWs r2) with
                | none => none
                | some (v, r3) =>
                    match skipWs r3 with
                    | [] => none
                    | c4 :: r4 =>
                        if c4 = ',' then parseEntriesAux fuel (skipWs r4) (acc ++ [(k, v)])
                        else if c4 = '\x7d' then
                          (if (skipWs r4).isEmpty then some (acc ++ [(k, v)]) else none)
                        else none
              else none

/-- `json.load` restricted to flat string-to-string objects (the only
shape the engine ever writes); anything else is malformed and the caller
falls back to an empty mapping. -/
def parseCache (s : Str) : Option Cache :=
  match skipWs s with
  | [] => none
  | c :: r =>
      if c = '\x7b' then
        match skipWs r with
        | [] => none
        | c2 :: r2 =>
            if c2 = '\x7d' then (if (skipWs r2).isEmpty then some [] else none)
            else parseEntriesAux ((c2 :: r2).length + 1) (c2 :: r2) []
      else none

/-- One `"key": "value"` member as `json.dump(..., indent=2)` writes it
(without the two-space indent). -/
def entryCore (p : Str × Str) : Str :=
  '"' :: p.1 ++ '"' :: ':' :: ' ' :: '"' :: p.2 ++ ['"']

/-- The serialized members after the first one, each preceded by the
`,\n  ` separator-plus-indent, followed by the closing `\n}`. -/
def tailStr : Cache → Str
  | [] => ['\n', '\x7d']
  | p :: t => ',' :: '\n' :: ' ' :: ' ' :: entryCore p ++ tailStr t

/-- `json.dump(mapping, f, ensure_ascii=False, indent=2)` (line 450):
the exact file content written for a flat string-to-string mapping whose
strings need no escaping. -/
def serializeCache : Cache → Str
  | [] => ['\x7b', '\x7d']
  | p :: t => '\x7b' :: '\n' :: ' ' :: ' ' :: entryCore p ++ tailStr t

/-- `GmailCheckSkill._load_cache`: a missing or malformed cache file
yields an empty mapping, never an error. -/
def loadCache (disk : Disk) : Cache :=
  match disk.cacheFile with
  | none => []
  | some content => (parseCache content).getD []

/-- `GmailCheckSkill._save_cache`: overwrite the cache file with the
serialized mapping. -/
def saveDisk (_disk : Disk) (m : Cache) : Disk := ⟨some (serializeCache m)⟩

/-- The configuration fields `execute` extracts that the engine model
uses (the interval and date-window fields only shape the mail-store
search, which the model receives pre-computed in `ConnResult`). -/
structure Config where
  username : Str
  appPassword : Str
  emailFilters : List FilterEntry
  maxEmails : Nat
  useCache : Bool
deriving DecidableEq

/-- The validation message of `execute` (line 156). -/
def validationMsg : Str :=
  "Missing required parameters: username, app_password, or email_filters".toList

/-- The envelope `execute` returns for a one-shot run: a validation
failure, an execution failure (an exception caught at line 207), or a
success carrying the matched emails and the statistics fields
`emails_checked`, `cache_size` and `filters_applied`. -/
inductive ExecResult where
  | validationError (message : Str)
  | executionError (message : Str)
  | ok (matchedEmails : List MatchedEmail)
      (emailsChecked cacheSize filtersApplied : Nat)
deriving DecidableEq

/-- `GmailCheckSkill.execute` with `background_mode=False` (lines
138-215): reject empty username, password or filters map (an empty dict
is falsy in Python); load the cache only when `use_cache` is enabled;
run `_check_emails`; on success always save the updated mapping and
report statistics, with `emails_checked` set to `len(matched_emails)`
and `cache_size` to the mapping's final size; a raised exception leaves
the disk untouched and becomes an execution-error envelope. -/
def executeOnce (md5hex decode : Str → Str) (now : Str) (cfg : Config)
    (conn : ConnResult) (disk : Disk) : ExecResult × Disk :=
  if cfg.username.isEmpty || cfg.appPassword.isEmpty || cfg.emailFilters.isEmpty then
    (.validationError validationMsg, disk)
  else
    let processed := if cfg.useCache then loadCache disk else []
    match checkEmails md5hex decode now cfg.emailFilters conn processed cfg.maxEmails cfg.useCache with
    | .error msg => (.executionError msg, disk)
    | .ok r => (.ok r.1 r.1.length r.2.length cfg.emailFilters.length, saveDisk disk r.2)

/-- One iteration of `monitoring_loop` (lines 460-516): run
`_check_emails` over the carried mapping; errors are caught and logged
and the iteration changes nothing durable; on success the cache file is
written only when the run matched at least one email (`if
matched_emails:` at lines 471 and 501). Returns the mapping carried to
the next iteration and the disk. -/
def monitorIteration (md5hex decode : Str → Str) (now : Str)
    (filters : List FilterEntry) (maxEmails : Nat) (useCache : Bool)
    (conn : ConnResult) (processed : Cache) (disk : Disk) : Cache × Disk :=
  match checkEmails md5hex decode now filters conn processed maxEmails useCache with
  | .error _ => (processed, disk)
  | .ok r => if r.1.isEmpty then (r.2, disk) else (r.2, saveDisk disk r.2)

/-- The monitoring state `stop_monitoring` inspects: whether
`self._monitoring_thread` is set, whether that thread `is_alive()`, and
whether the stop event is set. -/
structure MonitorHandle where
  threadExists : Bool
  threadAlive : Bool
  stopEventSet : Bool
deriving DecidableEq

/-- `GmailCheckSkill.stop_monitoring` (lines 544-550): if a monitoring
thread exists and is alive, set the stop event, `join(timeout=5)` and
return `True`; otherwise return `False`. `joinCompletes` records whether
the thread actually terminated within the join timeout — the code never
checks it, so the thread may still be alive afterwards. -/
def stopMonitoring (st : MonitorHandle) (joinCompletes : Bool) : Bool × MonitorHandle :=
  if st.threadExists && st.threadAlive then
    (true, { threadExists := true, threadAlive := !joinCompletes, stopEventSet := true })
  else (false, st)

/-- The invariant the candidate loop maintains when cache-use is
enabled: reported fingerprints are pairwise distinct and every reported
fingerprint is present in the cache mapping. -/
def RunInv (st : List MatchedEmail × Cache) : Prop :=
  (st.1.map (fun e => e.emailId)).Nodup ∧
  ∀ e ∈ st.1, dictContains st.2 e.emailId = true

/-- The match list and updated mapping a one-shot run computes. -/
def oneShotRun (md5hex decode : Str → Str) (now : Str) (cfg : Config)
    (cs : List Candidate) (disk : Disk) : List MatchedEmail × Cache :=
  runCandidates md5hex decode now cfg.emailFilters cfg.useCache
    (if cfg.useCache then loadCache disk else []) (capCandidates cfg.maxEmails cs)

/-- A character `json.dump` writes without an escape sequence. -/
def plainChar (c : Char) : Prop := c ≠ '"' ∧ c ≠ '\\' ∧ 31 < c.toNat

/-- A string `json.dump` writes verbatim between quotes. -/
def plainStr (s : Str) : Prop := ∀ c ∈ s, plainChar c

/-- A mapping as held by the engine: plain keys and values, and distinct
keys (it is a Python dict). -/
def plainCache (m : Cache) : Prop :=
  (∀ p ∈ m, plainStr p.1 ∧ plainStr p.2) ∧ (m.map Prod.fst).Nodup

instance (c : Char) : Decidable (plainChar c) := by
  unfold plainChar
  infer_instance

instance (s : Str) : Decidable (plainStr s) := by
  unfold plainStr
  infer_instance

instance (m : Cache) : Decidable (plainCache m) := by
  unfold plainCache
  infer_instance

/-! ### Helper lemmas: substring containment -/

lemma startsWith_iff (n : Str) : ∀ h : Str, startsWith h n = true ↔ ∃ t, h = n ++ t := by
  induction n with
  | nil =>
      intro h
      simp [startsWith.eq_def]
  | cons d n ih =>
      intro h
      cases h with
      | nil => simp [startsWith]
      | cons c t =>
          simp only [startsWith, Bool.and_eq_true, beq_iff_eq, ih t, List.cons_append,
            List.cons.injEq]
          constructor
          · rintro ⟨rfl, s, rfl⟩; exact ⟨s, rfl, rfl⟩
          · rintro ⟨s, rfl, rfl⟩; exact ⟨rfl, s, rfl⟩

lemma pyContains_iff (h n : Str) : pyContains h n = true ↔ IsSubstring n h := by
  induction h with
  | nil =>
      simp [pyContains, IsSubstring, List.isEmpty_iff]
  | cons c t ih =>
      simp only [pyContains, Bool.or_eq_true, startsWith_iff, ih, IsSubstring]
      constructor
      · rintro (⟨s, hs⟩ | ⟨u, v, rfl⟩)
        · exact ⟨[], s, by simpa using hs⟩
        · exact ⟨c :: u, v, rfl⟩
      · rintro ⟨u, v, huv⟩
        cases u with
        | nil => exact Or.inl ⟨v, by simpa using huv⟩
        | cons a u =>
            right
            rw [List.cons_append, List.cons_append] at huv
            rcases List.cons.injEq .. ▸ huv with ⟨_, rfl⟩
            exact ⟨u, v, by simp⟩

lemma pyContains_nil (h : Str) : pyContains h [] = true := by
  cases h <;> simp [pyContains, startsWith]

/-- Characterization of `_match_subject`: true exactly when the subject
is non-empty and the lowered pattern occurs in the lowered subject. -/
lemma matchSubject_iff (S P : Str) :
    matchSubject S P = true ↔ S ≠ [] ∧ IsSubstring (pyLower P) (pyLower S) := by
  unfold matchSubject
  cases S with
  | nil => simp
  | cons c t => simp [pyContains_iff]

/-! ### Helper lemmas: the filter-evaluation loop -/

lemma not_isEmpty_filter_eq_any {α : Type} (p : α → Bool) (l : List α) :
    (!(l.filter p).isEmpty) = l.any p := by
  induction l with
  | nil => simp
  | cons a t ih =>
      cases h : p a <;> simp [List.filter_cons, List.any_cons, h, ih]

/-- Full characterization of the filter loop: matched subject patterns
are accumulated across all sender-matching filters (no short-circuit),
a match is found exactly when some filter's sender matches and one of
its subject patterns matches, and the recorded sender is the last
filter entry (in dict order) whose sender matched. -/
lemma evalFilters_eq (sender subject : Str) (fs : List FilterEntry) :
    (evalFilters sender subject fs).matchedSubjects
      = fs.flatMap (fun f => if matchSender sender f.sender then
          f.subjects.filter (fun p => matchSubject subject p) else [])
    ∧ (evalFilters sender subject fs).matchFound
      = fs.any (fun f => matchSender sender f.sender
          && f.subjects.any (fun p => matchSubject subject p))
    ∧ (evalFilters sender subject fs).matchedSender
      = ((fs.filter (fun f => matchSender sender f.sender)).getLast?).map
          (fun f => f.sender) := by
  induction fs using List.reverseRecOn with
  | nil => simp [evalFilters]
  | append_singleton fs f ih =>
      obtain ⟨ih1, ih2, ih3⟩ := ih
      unfold evalFilters at ih1 ih2 ih3 ⊢
      rw [List.foldl_append] at *
      cases hm : matchSender sender f.sender with
      | false =>
          simp only [List.foldl_cons, List.foldl_nil, hm, Bool.false_eq_true, if_false,
            List.flatMap_append, List.any_append, List.filter_append]
          refine ⟨?_, ?_, ?_⟩
          · simp [ih1, hm]
          · simp [ih2, hm]
          · simp [ih3, hm, List.filter_cons]
      | true =>
          simp only [List.foldl_cons, List.foldl_nil, hm, if_true,
            List.flatMap_append, List.any_append, List.filter_append]
          refine ⟨?_, ?_, ?_⟩
          · simp [ih1, hm]
          · simp [ih2, hm]
            rw [not_isEmpty_filter_eq_any]
          · simp [hm, List.filter_cons]

/-! ### Helper lemmas: the candidate loop and the cache mapping -/

lemma any_key_map (d : Cache) (k v k' : Str) :
    (d.map (fun p => if p.1 == k then (k, v) else p)).any (fun p => p.1 == k')
      = d.any (fun p => p.1 == k') := by
  induction d with
  | nil => rfl
  | cons q t ih =>
      simp only [List.map_cons, List.any_cons, ih]
      by_cases h : q.1 == k
      · have hq : q.1 = k := by simpa using h
        simp [h, hq]
      · simp [h]

lemma dictContains_dictInsert (d : Cache) (k v k' : Str) :
    dictContains (dictInsert d k v) k' = (dictContains d k' || k == k') := by
  unfold dictInsert
  cases hd : dictContains d k with
  | false =>
      simp only [Bool.false_eq_true, if_false]
      simp [dictContains, List.any_append]
  | true =>
      simp only [if_true, dictContains]
      rw [any_key_map]
      by_cases hk : k = k'
      · subst hk
        simp only [dictContains] at hd
        simp [hd]
      · simp [beq_iff_eq, hk]

lemma processCandidate_inv (md5hex decode : Str → Str) (now : Str)
    (filters : List FilterEntry) (c : Candidate)
    (st : List MatchedEmail × Cache) (h : RunInv st) :
    RunInv (processCandidate md5hex decode now filters true st c) := by
  obtain ⟨hnd, hmem⟩ := h
  unfold processCandidate
  cases hf : c.fails with
  | true => simpa [hf] using ⟨hnd, hmem⟩
  | false =>
      simp only [hf, Bool.false_eq_true, if_false, Bool.true_and]
      cases hc : dictContains st.2 (md5hex (c.messageId ++ c.dateReceived)) with
      | true => simpa using ⟨hnd, hmem⟩
      | false =>
          simp only [Bool.false_eq_true, if_false]
          cases hm : (evalFilters c.sender (decodedSubject decode c) filters).matchFound with
          | false => simpa [hm] using ⟨hnd, hmem⟩
          | true =>
              simp only [hm, if_true]
              constructor
              · simp only [List.map_append, List.map_cons, List.map_nil]
                rw [List.nodup_append]
                refine ⟨hnd, List.nodup_singleton _, ?_⟩
                intro a ha hb
                simp only [List.mem_singleton] at hb
                subst hb
                simp only [List.mem_map] at ha
                obtain ⟨e, he, heq⟩ := ha
                have := hmem e he
                rw [heq] at this
                rw [this] at hc
                cases hc
              · intro e he
                simp only [List.mem_append, List.mem_singleton] at he
                rcases he with he | rfl
                · have := hmem e he
                  simp only [dictContains_dictInsert, this, Bool.true_or]
                · simp [dictContains_dictInsert]

lemma runCandidates_inv (md5hex decode : Str → Str) (now : Str)
    (filters : List FilterEntry) :
    ∀ (cs : List Candidate) (st : List MatchedEmail × Cache), RunInv st →
      RunInv (cs.foldl (processCandidate md5hex decode now filters true) st) := by
  intro cs
  induction cs with
  | nil => intro st h; simpa using h
  | cons c t ih =>
      intro st h
      rw [List.foldl_cons]
      exact ih _ (processCandidate_inv md5hex decode now filters c st h)

/-- With cache-use enabled, the fingerprints of the matched emails a run
reports are pairwise distinct. -/
lemma runCandidates_nodup (md5hex decode : Str → Str) (now : Str)
    (filters : List FilterEntry) (cache : Cache) (cs : List Candidate) :
    ((runCandidates md5hex decode now filters true cache cs).1.map
      (fun e => e.emailId)).Nodup := by
  have h := runCandidates_inv md5hex decode now filters cs ([], cache)
    ⟨List.nodup_nil, by intro e he; cases he⟩
  exact h.1

/-- With an empty filter map the candidate loop matches nothing and
changes nothing: every candidate is inspected and skipped. -/
lemma runCandidates_nil_filters (md5hex decode : Str → Str) (now : Str)
    (useCache : Bool) (cache : Cache) (cs : List Candidate) :
    runCandidates md5hex decode now [] useCache cache cs = ([], cache) := by
  unfold runCandidates
  have step : ∀ (st : List MatchedEmail × Cache) (c : Candidate),
      processCandidate md5hex decode now [] useCache st c = st := by
    intro st c
    unfold processCandidate evalFilters
    simp
  have : ∀ (l : List Candidate) (st : List MatchedEmail × Cache),
      l.foldl (processCandidate md5hex decode now [] useCache) st = st := by
    intro l
    induction l with
    | nil => intro st; rfl
    | cons c t ih => intro st; rw [List.foldl_cons, step]; exact ih st
  exact this cs ([], cache)

/-! ### Helper lemmas: the one-shot execute path -/

lemma executeOnce_ok (md5hex decode : Str → Str) (now : Str) (cfg : Config)
    (cs : List Candidate) (disk : Disk)
    (h1 : cfg.username ≠ []) (h2 : cfg.appPassword ≠ []) (h3 : cfg.emailFilters ≠ []) :
    executeOnce md5hex decode now cfg (.ok cs) disk =
      (.ok (oneShotRun md5hex decode now cfg cs disk).1
        (oneShotRun md5hex decode now cfg cs disk).1.length
        (oneShotRun md5hex decode now cfg cs disk).2.length
        cfg.emailFilters.length,
       saveDisk disk (oneShotRun md5hex decode now cfg cs disk).2) := by
  unfold executeOnce
  have e1 : cfg.username.isEmpty = false := by
    simpa [List.isEmpty_iff] using h1
  have e2 : cfg.appPassword.isEmpty = false := by
    simpa [List.isEmpty_iff] using h2
  have e3 : cfg.emailFilters.isEmpty = false := by
    simpa [List.isEmpty_iff] using h3
  simp only [e1, e2, e3, Bool.or_self, Bool.false_or, Bool.false_eq_true, if_false]
  rfl

lemma executeOnce_connError (md5hex decode : Str → Str) (now : Str) (cfg : Config)
    (msg : Str) (disk : Disk)
    (h1 : cfg.username ≠ []) (h2 : cfg.appPassword ≠ []) (h3 : cfg.emailFilters ≠ []) :
    executeOnce md5hex decode now cfg (.connError msg) disk =
      (.executionError (connErrorMsg ++ msg), disk) := by
  unfold executeOnce
  have e1 : cfg.username.isEmpty = false := by
    simpa [List.isEmpty_iff] using h1
  have e2 : cfg.appPassword.isEmpty = false := by
    simpa [List.isEmpty_iff] using h2
  have e3 : cfg.emailFilters.isEmpty = false := by
    simpa [List.isEmpty_iff] using h3
  simp only [e1, e2, e3, Bool.or_self, Bool.false_or, Bool.false_eq_true, if_false]
  rfl

/-! ### Helper lemmas: cache serialization round trip -/

lemma takeWhile_quote (k : Str) (R : Str) (hk : ∀ c ∈ k, c ≠ '"') :
    (k ++ '"' :: R).takeWhile (· != '"') = k
    ∧ (k ++ '"' :: R).dropWhile (· != '"') = '"' :: R := by
  induction k with
  | nil => simp [List.takeWhile_cons, List.dropWhile_cons]
  | cons c t ih =>
      have hc : c ≠ '"' := hk c (List.mem_cons_self c t)
      have iht := ih (fun c' hc' => hk c' (List.mem_cons_of_mem c hc'))
      simp only [List.cons_append, List.takeWhile_cons, List.dropWhile_cons,
        bne_iff_ne, ne_eq, hc, not_false_eq_true, if_true, iht.1, iht.2, and_self]

lemma parseJString_plain (k : Str) (R : Str) (hk : plainStr k) :
    parseJString ('"' :: (k ++ '"' :: R)) = some (k, R) := by
  have hq : ∀ c ∈ k, c ≠ '"' := fun c hc => (hk c hc).1
  have hb : ∀ c ∈ k, c ≠ '\\' := fun c hc => (hk c hc).2.1
  obtain ⟨ht, hd⟩ := takeWhile_quote k R hq
  simp only [parseJString, if_true]
  rw [ht, hd]
  have hall : k.all (fun cc => cc != '\\') = true := by
    rw [List.all_eq_true]
    intro c hc
    simpa [bne_iff_ne] using hb c hc
  simp [hall]

lemma skipWs_not_ws (c : Char) (r : Str) (h : jsonWs c = false) :
    skipWs (c :: r) = c :: r := by
  simp [skipWs, List.dropWhile_cons, h]

lemma skipWs_ws (c : Char) (r : Str) (h : jsonWs c = true) :
    skipWs (c :: r) = skipWs r := by
  simp [skipWs, List.dropWhile_cons, h]

lemma skipWs_colon (r : Str) : skipWs (':' :: r) = ':' :: r := skipWs_not_ws _ _ (by decide)

lemma skipWs_comma (r : Str) : skipWs (',' :: r) = ',' :: r := skipWs_not_ws _ _ (by decide)

lemma skipWs_quote (r : Str) : skipWs ('"' :: r) = '"' :: r := skipWs_not_ws _ _ (by decide)

lemma skipWs_rbrace (r : Str) : skipWs ('\x7d' :: r) = '\x7d' :: r :=
  skipWs_not_ws _ _ (by decide)

lemma skipWs_lbrace (r : Str) : skipWs ('\x7b' :: r) = '\x7b' :: r :=
  skipWs_not_ws _ _ (by decide)

lemma skipWs_nl (r : Str) : skipWs ('\n' :: r) = skipWs r := skipWs_ws _ _ (by decide)

lemma skipWs_space (r : Str) : skipWs (' ' :: r) = skipWs r := skipWs_ws _ _ (by decide)

lemma skipWs_nil : skipWs [] = [] := rfl

lemma tailStr_length (t : Cache) : t.length ≤ (tailStr t).length := by
  induction t with
  | nil => simp [tailStr]
  | cons p s ih =>
      simp only [tailStr, List.length_cons, List.length_append]
      omega

lemma parseEntriesAux_roundtrip :
    ∀ (t : Cache) (p : Str × Str) (acc : Cache) (fuel : Nat),
      plainStr p.1 → plainStr p.2 →
      (∀ q ∈ t, plainStr q.1 ∧ plainStr q.2) →
      t.length < fuel →
      parseEntriesAux fuel (entryCore p ++ tailStr t) acc = some (acc ++ p :: t) := by
  intro t
  induction t with
  | nil =>
      intro p acc fuel hk hv _ hfuel
      cases fuel with
      | zero => omega
      | succ f =>
          have harg : entryCore p ++ tailStr [] =
              '"' :: (p.1 ++ '"' :: (':' :: ' ' :: '"' :: (p.2 ++ '"' :: '\n' :: '\x7d' :: []))) := by
            simp [entryCore, tailStr]
          rw [harg]
          simp only [parseEntriesAux]
          simp [parseJString_plain p.1 _ hk, parseJString_plain p.2 _ hv, skipWs_colon,
            skipWs_space, skipWs_quote, skipWs_nl, skipWs_comma, skipWs_rbrace, skipWs_nil]
  | cons q s ih =>
      intro p acc fuel hk hv hqs hfuel
      cases fuel with
      | zero => omega
      | succ f =>
          have harg : entryCore p ++ tailStr (q :: s) =
              '"' :: (p.1 ++ '"' :: (':' :: ' ' :: '"' :: (p.2 ++ '"' ::
                (',' :: '\n' :: ' ' :: ' ' :: (entryCore q ++ tailStr s))))) := by
            simp [entryCore, tailStr]
          have hhead : entryCore q ++ tailStr s =
              '"' :: (q.1 ++ '"' :: (':' :: ' ' :: '"' :: (q.2 ++ '"' :: tailStr s))) := by
            simp [entryCore]
          have hq0 : skipWs (entryCore q ++ tailStr s) = entryCore q ++ tailStr s := by
            rw [hhead]
            exact skipWs_quote _
          have hq := hqs q (List.mem_cons_self q s)
          have hrec := ih q (acc ++ [(p.1, p.2)]) f hq.1 hq.2
            (fun r hr => hqs r (List.mem_cons_of_mem q hr))
            (by simpa using Nat.lt_of_succ_lt_succ hfuel)
          rw [harg]
          simp only [parseEntriesAux]
          simp [parseJString_plain p.1 _ hk, parseJString_plain p.2 _ hv, skipWs_colon,
            skipWs_space, skipWs_quote, skipWs_nl, skipWs_comma, skipWs_rbrace, skipWs_nil,
            hq0, hrec]

lemma parseCache_serializeCache (m : Cache)
    (h : ∀ p ∈ m, plainStr p.1 ∧ plainStr p.2) :
    parseCache (serializeCache m) = some m := by
  cases m with
  | nil => decide
  | cons p t =>
      have hser : serializeCache (p :: t) =
          '\x7b' :: '\n' :: ' ' :: ' ' :: (entryCore p ++ tailStr t) := by
        simp [serializeCache]
      have hhead : entryCore p ++ tailStr t =
          '"' :: (p.1 ++ '"' :: (':' :: ' ' :: '"' :: (p.2 ++ '"' :: tailStr t))) := by
        simp [entryCore]
      have hq0 : skipWs (entryCore p ++ tailStr t) = entryCore p ++ tailStr t := by
        rw [hhead]
        exact skipWs_quote _
      have hp := h p (List.mem_cons_self p t)
      have hfuel : t.length < (entryCore p ++ tailStr t).length + 1 := by
        have := tailStr_length t
        simp only [List.length_append]
        omega
      have hrt := parseEntriesAux_roundtrip t p [] ((entryCore p ++ tailStr t).length + 1)
        hp.1 hp.2 (fun q hq => h q (List.mem_cons_of_mem p hq)) hfuel
      rw [hser]
      simp only [parseCache]
      rw [skipWs_lbrace]
      simp only [if_pos rfl]
      rw [skipWs_nl, skipWs_space, skipWs_space, hq0, hhead]
      have hback : ('"' : Char) :: (p.1 ++ '"' :: (':' :: ' ' :: '"' ::
          (p.2 ++ '"' :: tailStr t))) = entryCore p ++ tailStr t := hhead.symm
      simp only [if_neg (by decide : ¬ ('"' : Char) = '\x7d')]
      rw [hback, hrt]
      simp

example : matchSubject ("This is a TEST email".toList) ("test".toList) = true := by decide
example : matchSender ("Name <a@b.com>".toList) ("A@B.COM".toList) = true := by decide
example : matchSender ("Name <x@y.com>".toList) ("a@b.com".toList) = false := by decide

/-! ### Claim C1 -/

/-- C1 counterexample: with non-empty username and password and a
present-but-empty filters map, `execute` does not perform the run — an
empty Python dict is falsy, so the validation check at line 151 rejects
it with a validation error and the run never starts. -/
theorem claim1_counterexample :
    executeOnce (fun s => s) (fun s => s) ("t0".toList)
      ⟨"u".toList, "p".toList, [], 100, true⟩ (.ok []) ⟨none⟩ =
      (.validationError validationMsg, ⟨none⟩) := by decide

/-- C1 (amended): `execute` rejects an empty filters map with a
validation error before any run starts; it is only the inner engine
`_check_emails` that treats an empty filter map as "match nothing": on
an established session it inspects the candidates, matches none, and
returns an empty match list with the cache unchanged, not an error. -/
theorem claim1_theorem (md5hex decode : Str → Str) (now : Str) (cfg : Config)
    (conn : ConnResult) (disk : Disk) (cs : List Candidate) (cache : Cache)
    (maxEmails : Nat) (useCache : Bool) (hf : cfg.emailFilters = []) :
    executeOnce md5hex decode now cfg conn disk = (.validationError validationMsg, disk)
    ∧ checkEmails md5hex decode now [] (.ok cs) cache maxEmails useCache = .ok ([], cache) := by
  constructor
  · unfold executeOnce
    simp [hf]
  · simp only [checkEmails]
    rw [runCandidates_nil_filters]

/-- C1 witness: the amended claim evaluated at a concrete input. -/
theorem claim1_witness :
    (⟨"u".toList, "p".toList, [], 100, true⟩ : Config).emailFilters = []
    ∧ (executeOnce (fun s => s) (fun s => s) ("t0".toList)
          ⟨"u".toList, "p".toList, [], 100, true⟩ (.ok []) ⟨none⟩ =
          (.validationError validationMsg, ⟨none⟩)
        ∧ checkEmails (fun s => s) (fun s => s) ("t0".toList) [] (.ok []) [] 100 true =
          .ok ([], [])) :=
  ⟨rfl, claim1_theorem (fun s => s) (fun s => s) ("t0".toList)
    ⟨"u".toList, "p".toList, [], 100, true⟩ (.ok []) ⟨none⟩ [] [] 100 true rfl⟩

/-! ### Claim C2 -/

/-- C2: if the mail-store session cannot be established during a
one-shot run, the whole run aborts: `execute` returns a typed failure
envelope (the caught exception, wrapped with `Gmail connection error:`),
not a successful empty result, and the cache file on disk is exactly
what it was before. -/
theorem claim2_theorem (md5hex decode : Str → Str) (now : Str) (cfg : Config)
    (msg : Str) (disk : Disk)
    (h1 : cfg.username ≠ []) (h2 : cfg.appPassword ≠ []) (h3 : cfg.emailFilters ≠ []) :
    executeOnce md5hex decode now cfg (.connError msg) disk =
      (.executionError (connErrorMsg ++ msg), disk) :=
  executeOnce_connError md5hex decode now cfg msg disk h1 h2 h3

/-- C2 witness: a concrete login failure leaves a concrete disk
untouched and produces the failure envelope. -/
theorem claim2_witness :
    ("u".toList ≠ ([] : Str)) ∧ ("p".toList ≠ ([] : Str))
    ∧ ([⟨"a@b.com".toList, ["x".toList]⟩] ≠ ([] : List FilterEntry))
    ∧ executeOnce (fun s => s) (fun s => s) ("t0".toList)
        ⟨"u".toList, "p".toList, [⟨"a@b.com".toList, ["x".toList]⟩], 100, true⟩
        (.connError ("login failed".toList)) ⟨some ("old".toList)⟩ =
        (.executionError (connErrorMsg ++ "login failed".toList), ⟨some ("old".toList)⟩) :=
  ⟨by decide, by decide, by decide,
    claim2_theorem (fun s => s) (fun s => s) ("t0".toList)
      ⟨"u".toList, "p".toList, [⟨"a@b.com".toList, ["x".toList]⟩], 100, true⟩
      ("login failed".toList) ⟨some ("old".toList)⟩ (by decide) (by decide) (by decide)⟩

/-! ### Claim C3 -/

/-- C3 counterexample: a background-loop iteration whose run completes
with zero matches does not save — the cache file that did not exist
before the iteration still does not exist after it, because the loop
only saves under `if matched_emails:` (lines 471, 501). -/
theorem claim3_counterexample :
    monitorIteration (fun s => s) (fun s => s) ("t0".toList)
      [⟨"a@b.com".toList, ["x".toList]⟩] 100 true
      (.ok [⟨"q@r.com".toList, "hello".toList, "m1".toList, "d1".toList, [], false⟩])
      [] ⟨none⟩ = ([], ⟨none⟩) := by decide

/-- C3 (amended): a successful one-shot run saves the updated mapping
unconditionally — whatever the use_cache flag and whether or not
anything matched — but a background-loop iteration saves only when the
run matched at least one email. -/
theorem claim3_theorem (md5hex decode : Str → Str) (now : Str) (cfg : Config)
    (cs : List Candidate) (disk : Disk) (filters : List FilterEntry)
    (maxEmails : Nat) (useCache : Bool) (processed : Cache)
    (h1 : cfg.username ≠ []) (h2 : cfg.appPassword ≠ []) (h3 : cfg.emailFilters ≠ []) :
    (executeOnce md5hex decode now cfg (.ok cs) disk).2 =
      saveDisk disk (oneShotRun md5hex decode now cfg cs disk).2
    ∧ (monitorIteration md5hex decode now filters maxEmails useCache (.ok cs) processed disk).2 =
        (if (runCandidates md5hex decode now filters useCache processed
              (capCandidates maxEmails cs)).1.isEmpty
         then disk
         else saveDisk disk (runCandidates md5hex decode now filters useCache processed
              (capCandidates maxEmails cs)).2) := by
  constructor
  · rw [executeOnce_ok md5hex decode now cfg cs disk h1 h2 h3]
  · simp only [monitorIteration, checkEmails]
    cases h : (runCandidates md5hex decode now filters useCache processed
        (capCandidates maxEmails cs)).1.isEmpty <;> simp [h]

/-- C3 witness: the amended claim evaluated at a concrete input. -/
theorem claim3_witness :
    ("u".toList ≠ ([] : Str)) ∧ ("p".toList ≠ ([] : Str))
    ∧ ([⟨"a@b.com".toList, ["x".toList]⟩] ≠ ([] : List FilterEntry))
    ∧ ((executeOnce (fun s => s) (fun s => s) ("t0".toList)
          ⟨"u".toList, "p".toList, [⟨"a@b.com".toList, ["x".toList]⟩], 100, true⟩
          (.ok []) ⟨none⟩).2 =
        saveDisk ⟨none⟩ (oneShotRun (fun s => s) (fun s => s) ("t0".toList)
          ⟨"u".toList, "p".toList, [⟨"a@b.com".toList, ["x".toList]⟩], 100, true⟩ [] ⟨none⟩).2
      ∧ (monitorIteration (fun s => s) (fun s => s) ("t0".toList)
            [⟨"a@b.com".toList, ["x".toList]⟩] 100 true (.ok []) [] ⟨none⟩).2 =
          (if (runCandidates (fun s => s) (fun s => s) ("t0".toList)
                [⟨"a@b.com".toList, ["x".toList]⟩] true []
                (capCandidates 100 [])).1.isEmpty
           then (⟨none⟩ : Disk)
           else saveDisk ⟨none⟩ (runCandidates (fun s => s) (fun s => s) ("t0".toList)
                [⟨"a@b.com".toList, ["x".toList]⟩] true [] (capCandidates 100 [])).2)) :=
  ⟨by decide, by decide, by decide,
    claim3_theorem (fun s => s) (fun s => s) ("t0".toList)
      ⟨"u".toList, "p".toList, [⟨"a@b.com".toList, ["x".toList]⟩], 100, true⟩
      [] ⟨none⟩ [⟨"a@b.com".toList, ["x".toList]⟩] 100 true []
      (by decide) (by decide) (by decide)⟩

/-! ### Claim C4 -/

/-- C4 counterexample: with `use_cache=False` the skip check at line 283
is bypassed entirely, so two candidates sharing a fingerprint within one
run are both matched and both reported — the fingerprint appears twice
in the result of the very same run. -/
theorem claim4_counterexample :
    ((runCandidates (fun s => s) (fun s => s) ("t0".toList)
        [⟨"a@b.com".toList, ["test".toList]⟩] false []
        (capCandidates 100
          [⟨"a@b.com".toList, "a test".toList, "m1".toList, "d1".toList, [], false⟩,
           ⟨"a@b.com".toList, "a test".toList, "m1".toList, "d1".toList, [], false⟩])).1.map
      (fun e => e.emailId)) = ["m1d1".toList, "m1d1".toList]
    ∧ ¬ (((runCandidates (fun s => s) (fun s => s) ("t0".toList)
        [⟨"a@b.com".toList, ["test".toList]⟩] false []
        (capCandidates 100
          [⟨"a@b.com".toList, "a test".toList, "m1".toList, "d1".toList, [], false⟩,
           ⟨"a@b.com".toList, "a test".toList, "m1".toList, "d1".toList, [], false⟩])).1.map
      (fun e => e.emailId)).Nodup) := by decide

/-- C4 (amended): when cache-use is enabled the within-run insertion of
each matched fingerprint is visible to later iterations of the same run,
so the matched-email list of a run contains at most one entry per
fingerprint; with cache-use disabled duplicates can be reported. -/
theorem claim4_theorem (md5hex decode : Str → Str) (now : Str)
    (filters : List FilterEntry) (cache : Cache) (maxEmails : Nat) (cs : List Candidate) :
    checkEmails md5hex decode now filters (.ok cs) cache maxEmails true
      = .ok (runCandidates md5hex decode now filters true cache (capCandidates maxEmails cs))
    ∧ ((runCandidates md5hex decode now filters true cache
          (capCandidates maxEmails cs)).1.map (fun e => e.emailId)).Nodup :=
  ⟨rfl, runCandidates_nodup md5hex decode now filters cache (capCandidates maxEmails cs)⟩

/-! ### Claim C5 -/

/-- C5 counterexample: two filter entries whose senders both match the
candidate; the first one's subject pattern matches, the second one's
does not — yet `matched_sender` is overwritten at line 301 by every
sender-matching filter, so the reported `matched_sender_filter` is the
second entry, whose subject pattern did not match. -/
theorem claim5_counterexample :
    evalFilters ("a@b.com".toList) ("a test".toList)
      [⟨"a@b.com".toList, ["test".toList]⟩, ⟨"A@B.COM".toList, ["zzz".toList]⟩]
      = ⟨true, some ("A@B.COM".toList), ["test".toList]⟩
    ∧ matchSubject ("a test".toList) ("zzz".toList) = false
    ∧ matchSubject ("a test".toList) ("test".toList) = true := by decide

/-- C5 (amended): filter evaluation visits every entry without
short-circuiting, accumulating all matched subject substrings across
filters; the candidate matches iff some filter's sender matches and one
of that filter's subject patterns matches; but the reported
`matched_sender_filter` is the last filter entry (in dict order) whose
sender matched, which need not be a filter whose subject pattern
matched. -/
theorem claim5_theorem (sender subject : Str) (fs : List FilterEntry) :
    (evalFilters sender subject fs).matchedSubjects
      = fs.flatMap (fun f => if matchSender sender f.sender then
          f.subjects.filter (fun p => matchSubject subject p) else [])
    ∧ (evalFilters sender subject fs).matchFound
      = fs.any (fun f => matchSender sender f.sender
          && f.subjects.any (fun p => matchSubject subject p))
    ∧ (evalFilters sender subject fs).matchedSender
      = ((fs.filter (fun f => matchSender sender f.sender)).getLast?).map
          (fun f => f.sender) :=
  evalFilters_eq sender subject fs

/-! ### Claim C6 -/

/-- C6 counterexample: a run that inspects exactly one candidate and
matches none reports `emails_checked = 0`: the statistic is
`len(matched_emails)` (line 192), not the number of candidates
processed. -/
theorem claim6_counterexample :
    executeOnce (fun s => s) (fun s => s) ("t0".toList)
      ⟨"u".toList, "p".toList, [⟨"a@b.com".toList, ["x".toList]⟩], 100, true⟩
      (.ok [⟨"q@r.com".toList, "hello".toList, "m1".toList, "d1".toList, [], false⟩]) ⟨none⟩
      = (.ok [] 0 0 1, saveDisk ⟨none⟩ [])
    ∧ (capCandidates 100
        [⟨"q@r.com".toList, "hello".toList, "m1".toList, "d1".toList, [], false⟩]).length
      = 1 := by decide

/-- C6 (amended): a one-shot run returns, alongside the ordered match
list, statistics whose `emails_checked` field equals the number of
matches (the same value as `total_matched`), together with the cache
size after the update and the number of filters applied; the count of
candidates inspected is not reported. -/
theorem claim6_theorem (md5hex decode : Str → Str) (now : Str) (cfg : Config)
    (cs : List Candidate) (disk : Disk)
    (h1 : cfg.username ≠ []) (h2 : cfg.appPassword ≠ []) (h3 : cfg.emailFilters ≠ []) :
    executeOnce md5hex decode now cfg (.ok cs) disk =
      (.ok (oneShotRun md5hex decode now cfg cs disk).1
        (oneShotRun md5hex decode now cfg cs disk).1.length
        (oneShotRun md5hex decode now cfg cs disk).2.length
        cfg.emailFilters.length,
       saveDisk disk (oneShotRun md5hex decode now cfg cs disk).2) :=
  executeOnce_ok md5hex decode now cfg cs disk h1 h2 h3

/-- C6 witness: the amended claim evaluated at a concrete input. -/
theorem claim6_witness :
    ("u".toList ≠ ([] : Str)) ∧ ("p".toList ≠ ([] : Str))
    ∧ ([⟨"a@b.com".toList, ["test".toList]⟩] ≠ ([] : List FilterEntry))
    ∧ executeOnce (fun s => s) (fun s => s) ("t0".toList)
        ⟨"u".toList, "p".toList, [⟨"a@b.com".toList, ["test".toList]⟩], 100, true⟩
        (.ok [⟨"a@b.com".toList, "a test".toList, "m1".toList, "d1".toList, [], false⟩])
        ⟨none⟩ =
      (.ok (oneShotRun (fun s => s) (fun s => s) ("t0".toList)
          ⟨"u".toList, "p".toList, [⟨"a@b.com".toList, ["test".toList]⟩], 100, true⟩
          [⟨"a@b.com".toList, "a test".toList, "m1".toList, "d1".toList, [], false⟩] ⟨none⟩).1
        (oneShotRun (fun s => s) (fun s => s) ("t0".toList)
          ⟨"u".toList, "p".toList, [⟨"a@b.com".toList, ["test".toList]⟩], 100, true⟩
          [⟨"a@b.com".toList, "a test".toList, "m1".toList, "d1".toList, [], false⟩] ⟨none⟩).1.length
        (oneShotRun (fun s => s) (fun s => s) ("t0".toList)
          ⟨"u".toList, "p".toList, [⟨"a@b.com".toList, ["test".toList]⟩], 100, true⟩
          [⟨"a@b.com".toList, "a test".toList, "m1".toList, "d1".toList, [], false⟩] ⟨none⟩).2.length
        1,
       saveDisk ⟨none⟩ (oneShotRun (fun s => s) (fun s => s) ("t0".toList)
          ⟨"u".toList, "p".toList, [⟨"a@b.com".toList, ["test".toList]⟩], 100, true⟩
          [⟨"a@b.com".toList, "a test".toList, "m1".toList, "d1".toList, [], false⟩] ⟨none⟩).2) :=
  ⟨by decide, by decide, by decide,
    claim6_theorem (fun s => s) (fun s => s) ("t0".toList)
      ⟨"u".toList, "p".toList, [⟨"a@b.com".toList, ["test".toList]⟩], 100, true⟩
      [⟨"a@b.com".toList, "a test".toList, "m1".toList, "d1".toList, [], false⟩] ⟨none⟩
      (by decide) (by decide) (by decide)⟩

/-! ### Claim C7 -/

/-- C7 counterexample: a running monitor whose thread does not
terminate within the 5-second join timeout — `stop_monitoring` still
returns `True` (the code never re-checks `is_alive()` after the join),
so `True` does not mean the loop was successfully joined. -/
theorem claim7_counterexample :
    stopMonitoring ⟨true, true, false⟩ false = (true, ⟨true, true, true⟩) := by decide

/-- C7 (amended): `stop_monitoring` called with no live monitoring
thread returns `False` and changes nothing (a safe no-op, distinct from
having stopped a loop); with a live thread it sets the stop event,
attempts a bounded join, and returns `True` exactly when a thread was
alive at the call — irrespective of whether the join completed within
the timeout. -/
theorem claim7_theorem (st : MonitorHandle) (j a b e : Bool) :
    (stopMonitoring st j).1 = (st.threadExists && st.threadAlive)
    ∧ stopMonitoring ⟨a, false, e⟩ j = (false, ⟨a, false, e⟩)
    ∧ stopMonitoring ⟨false, b, e⟩ j = (false, ⟨false, b, e⟩)
    ∧ (stopMonitoring ⟨true, true, e⟩ j).2 = ⟨true, !j, true⟩ := by
  refine ⟨?_, ?_, ?_, ?_⟩
  · cases hc : st.threadExists && st.threadAlive <;> simp [stopMonitoring, hc]
  · simp [stopMonitoring]
  · simp [stopMonitoring]
  · simp [stopMonitoring]

/-! ### Claim C8 -/

/-- C8 counterexample: at `S = ""` and `P = ""` the claimed equivalence
fails — the case-folded empty pattern is a substring of the case-folded
empty subject, yet `_match_subject` returns `False` because of the
empty-subject guard at line 367. -/
theorem claim8_counterexample :
    matchSubject [] [] = false ∧ IsSubstring (pyLower []) (pyLower []) :=
  ⟨rfl, ⟨[], [], rfl⟩⟩

/-- C8 (amended): `matchSubject(S, P)` is true iff `S` is non-empty and
the case-folded `P` is a substring of the case-folded `S`; an empty
subject never matches any pattern, the empty pattern included. -/
theorem claim8_theorem (S P : Str) :
    matchSubject S P = true ↔ S ≠ [] ∧ IsSubstring (pyLower P) (pyLower S) :=
  matchSubject_iff S P

/-! ### Claim C9 -/

/-- C9 counterexample: a cache file holding the compact JSON text
`\x7b"a": "b"\x7d` loads successfully, but saving the loaded mapping
rewrites the file in the indented `json.dump(..., indent=2)` form, so
the on-disk content changes. -/
theorem claim9_counterexample :
    parseCache ("\x7b\"a\": \"b\"\x7d".toList) = some [("a".toList, "b".toList)]
    ∧ saveDisk ⟨some ("\x7b\"a\": \"b\"\x7d".toList)⟩
        (loadCache ⟨some ("\x7b\"a\": \"b\"\x7d".toList)⟩)
      ≠ ⟨some ("\x7b\"a\": \"b\"\x7d".toList)⟩ := by decide

/-- C9 (amended): save after load is a no-op on the on-disk content
when the file content was itself produced by save — for every mapping in
the engine's own format (plain strings, distinct keys), loading the
saved file and saving the result leaves the file content unchanged. -/
theorem claim9_theorem (d : Disk) (m : Cache) (h : plainCache m) :
    saveDisk (saveDisk d m) (loadCache (saveDisk d m)) = saveDisk d m := by
  have hrt := parseCache_serializeCache m h.1
  simp [saveDisk, loadCache, hrt]

/-- C9 witness: the amended claim evaluated at a concrete mapping. -/
theorem claim9_witness :
    plainCache [("f1".toList, "2025-01-01T00:00:00+00:00".toList)]
    ∧ saveDisk (saveDisk ⟨none⟩ [("f1".toList, "2025-01-01T00:00:00+00:00".toList)])
        (loadCache (saveDisk ⟨none⟩ [("f1".toList, "2025-01-01T00:00:00+00:00".toList)]))
      = saveDisk ⟨none⟩ [("f1".toList, "2025-01-01T00:00:00+00:00".toList)] :=
  ⟨by decide, claim9_theorem ⟨none⟩ [("f1".toList, "2025-01-01T00:00:00+00:00".toList)]
    (by decide)⟩

/-! ### Claim C10 -/

/-- C10: the empty pattern matches every non-empty subject (Python
`"" in s` is always true), so a filter entry whose subject list contains
the empty string matches every message from a matching sender that has a
non-empty subject. -/
theorem claim10_theorem (S sender subject : Str) (filters : List FilterEntry)
    (f : FilterEntry) (hS : S ≠ []) (hf : f ∈ filters)
    (hsend : matchSender sender f.sender = true)
    (hempty : [] ∈ f.subjects) (hsubj : subject ≠ []) :
    matchSubject S [] = true
    ∧ (evalFilters sender subject filters).matchFound = true := by
  constructor
  · rw [matchSubject_iff]
    exact ⟨hS, [], pyLower S, by simp [pyLower]⟩
  · rw [(evalFilters_eq sender subject filters).2.1, List.any_eq_true]
    refine ⟨f, hf, ?_⟩
    rw [Bool.and_eq_true]
    refine ⟨hsend, ?_⟩
    rw [List.any_eq_true]
    refine ⟨[], hempty, ?_⟩
    rw [matchSubject_iff]
    exact ⟨hsubj, [], pyLower subject, by simp [pyLower]⟩

/-- C10 witness: the claim evaluated at a concrete subject and filter
map containing the empty subject pattern. -/
theorem claim10_witness :
    ("Hi".toList ≠ ([] : Str))
    ∧ (⟨"a@b.com".toList, [[]]⟩ : FilterEntry) ∈ [(⟨"a@b.com".toList, [[]]⟩ : FilterEntry)]
    ∧ matchSender ("a@b.com".toList) (⟨"a@b.com".toList, [[]]⟩ : FilterEntry).sender = true
    ∧ ([] : Str) ∈ (⟨"a@b.com".toList, [[]]⟩ : FilterEntry).subjects
    ∧ ("Hi".toList ≠ ([] : Str))
    ∧ (matchSubject ("Hi".toList) [] = true
        ∧ (evalFilters ("a@b.com".toList) ("Hi".toList)
            [⟨"a@b.com".toList, [[]]⟩]).matchFound = true) :=
  ⟨by decide, by decide, by decide, by decide, by decide,
    claim10_theorem ("Hi".toList) ("a@b.com".toList) ("Hi".toList)
      [⟨"a@b.com".toList, [[]]⟩] ⟨"a@b.com".toList, [[]]⟩
      (by decide) (by decide) (by decide) (by decide) (by decide)⟩

end GmailCheck
